import Mathlib

/-!
Shallow embedding of the filplus-backend application lifecycle engine
(src/fplus-lib/src/core/mod.rs and its HTTP callers), together with
theorems checking the natural-language specification against it.

The repository ships only `core/mod.rs` and the HTTP router; the
`core::application::file` module (ApplicationFile, AllocationRequest,
AppState, Lifecycle) and the `external_services::github` adapter are part
of the repository but absent from the sources given here.  Definitions
for those pieces are modelled from the specification and are marked
`Modelled from the spec:` in their doc comments.  Everything else is a
direct translation of `core/mod.rs`.
-/

namespace Filplus

/-- Modelled from the spec: lifecycle states of an application
(`AppState` in the missing `core::application::file`; the four variants
are the ones `core/mod.rs` matches on). -/
inductive AppState where
  | GovernanceReview
  | ReadyToSign
  | StartSignDatacap
  | Granted
  deriving DecidableEq, Repr

/-- Modelled from the spec: request type of an allocation request,
`Initial` (called `First` in the source) or `Refill(sequence_number)`. -/
inductive AllocationRequestType where
  | First
  | Refill (n : Nat)
  deriving DecidableEq, Repr

/-- A notary signer record (fields taken from the `Notary` uses visible
in `core/mod.rs`). -/
structure Notary where
  signing_address : String
  time_of_signature : String
  message_cid : String
  deriving DecidableEq, Repr

/-- Modelled from the spec: one allocation request with its ordered
signer list; `actor` is the first argument `core/mod.rs` passes to
`AllocationRequest::new`. -/
structure AllocationRequest where
  actor : String
  id : String
  request_type : AllocationRequestType
  amount : String
  signers : List Notary
  deriving DecidableEq, Repr

/-- Modelled from the spec: `AllocationRequest::new` builds a request
with the given actor, fresh id, request type and amount, and an empty
signer list (signers are empty at creation). -/
def AllocationRequest.new (actor id : String) (t : AllocationRequestType)
    (amount : String) : AllocationRequest :=
  ⟨actor, id, t, amount, []⟩

/-- Modelled from the spec: the embedded lifecycle value, a state plus
the activity flag. -/
structure Lifecycle where
  state : AppState
  is_active : Bool
  deriving DecidableEq, Repr

def Lifecycle.get_state (l : Lifecycle) : AppState := l.state

/-- Modelled from the spec: `finish_proposal` moves the lifecycle from
ReadyToSign to StartSignDatacap (transition table row for `propose`). -/
def Lifecycle.finish_proposal (l : Lifecycle) : Lifecycle :=
  { l with state := .StartSignDatacap }

/-- Modelled from the spec: `finish_approval` moves the lifecycle to
Granted (transition table row for `approve`). -/
def Lifecycle.finish_approval (l : Lifecycle) : Lifecycle :=
  { l with state := .Granted }

/-- Client metadata; only the `name` field is used by `core/mod.rs`. -/
structure Client where
  name : String
  deriving DecidableEq, Repr

/-- Datacap metadata; only `total_requested_amount` is used by
`core/mod.rs`. -/
structure Datacap where
  total_requested_amount : String
  deriving DecidableEq, Repr

/-- Modelled from the spec: the application document combining
client/project metadata, the ordered allocation request history and the
lifecycle value (fields are the ones `core/mod.rs` reads). -/
structure ApplicationFile where
  id : String
  issue_number : String
  client : Client
  datacap : Datacap
  allocation : List AllocationRequest
  lifecycle : Lifecycle
  deriving DecidableEq, Repr

/-- Modelled from the spec: the active allocation request is the most
recently created one whose signer list has not yet reached the required
count of two approvals. -/
def activeAllocation (allocs : List AllocationRequest) :
    Option AllocationRequest :=
  (allocs.filter (fun a => a.signers.length < 2)).getLast?

/-- Modelled from the spec: `allocation.is_active(request_id)` holds
when `request_id` references the currently active allocation request. -/
def allocationIs_active (allocs : List AllocationRequest)
    (request_id : String) : Bool :=
  match activeAllocation allocs with
  | some a => a.id == request_id
  | none => false

/-- Append a signer to every allocation request whose id matches
`request_id` (helper shared by the two modelled signing updates). -/
def addSignerToList (allocs : List AllocationRequest) (signer : Notary)
    (request_id : String) : List AllocationRequest :=
  allocs.map (fun a =>
    if a.id = request_id then { a with signers := a.signers ++ [signer] }
    else a)

/-- Modelled from the spec: `complete_governance_review` appends the
freshly built allocation request (which already records the actor) and
moves the lifecycle state to ReadyToSign. -/
def ApplicationFile.complete_governance_review (app : ApplicationFile)
    (_actor : String) (request : AllocationRequest) : ApplicationFile :=
  { app with
    allocation := app.allocation ++ [request],
    lifecycle := { app.lifecycle with state := .ReadyToSign } }

/-- Modelled from the spec: `add_signer_to_allocation` appends the
signer to the request referenced by `request_id` and installs the given
lifecycle. -/
def ApplicationFile.add_signer_to_allocation (app : ApplicationFile)
    (signer : Notary) (request_id : String) (lc : Lifecycle) :
    ApplicationFile :=
  { app with
    allocation := addSignerToList app.allocation signer request_id,
    lifecycle := lc }

/-- Modelled from the spec: `add_signer_to_allocation_and_complete`
appends the second signer to the request referenced by `request_id` and
installs the given lifecycle; completion of the allocation is the
derived consequence of the signer list reaching the required count. -/
def ApplicationFile.add_signer_to_allocation_and_complete
    (app : ApplicationFile) (signer : Notary) (request_id : String)
    (lc : Lifecycle) : ApplicationFile :=
  { app with
    allocation := addSignerToList app.allocation signer request_id,
    lifecycle := lc }

/-- Modelled from the spec: `reached_total_datacap` marks the lifecycle
`is_active = false` (archival). -/
def ApplicationFile.reached_total_datacap (app : ApplicationFile) :
    ApplicationFile :=
  { app with lifecycle := { app.lifecycle with is_active := false } }

/-- Modelled from the spec: `start_refill_request` appends the new
refill allocation request; the overall lifecycle state label remains
Granted. -/
def ApplicationFile.start_refill_request (app : ApplicationFile)
    (r : AllocationRequest) : ApplicationFile :=
  { app with allocation := app.allocation ++ [r] }

/-- Modelled from the spec: `ApplicationFile::new` builds the initial
application document in state GovernanceReview with an empty allocation
history and an active lifecycle. -/
def ApplicationFile.new (issue_number id : String) (client : Client)
    (datacap : Datacap) : ApplicationFile :=
  { id := id, issue_number := issue_number, client := client,
    datacap := datacap, allocation := [],
    lifecycle := { state := .GovernanceReview, is_active := true } }

/-- Error type of the core (`LDNError` has the `Load` and `New` string
variants in the source); `Panic` additionally models a Rust `unwrap`
panic aborting the call. -/
inductive LDNError where
  | Load (msg : String)
  | New (msg : String)
  | Panic
  deriving DecidableEq, Repr

def exOk {ε α : Type} : Except ε α → Bool
  | .ok _ => true
  | .error _ => false

/-! ### Document store

Modelled from the spec (contract of the Document Store Adapter, spec
section 6): read-with-version and conditional write keyed by the version
token.  A document is either a parsed application or raw text (the
placeholder content and corrupted files). -/

inductive Doc where
  | app (a : ApplicationFile)
  | raw (s : String)
  deriving DecidableEq, Repr

structure FileEntry where
  doc : Doc
  sha : Nat
  deriving DecidableEq, Repr

/-- A storage location: path plus branch (ref). -/
abbrev Loc := String × String

/-- Modelled from the spec: the remote store, mapping locations to file
entries; `nextSha` supplies fresh version tokens. -/
structure Store where
  files : List (Loc × FileEntry)
  branches : List String
  nextSha : Nat
  deriving DecidableEq, Repr

def Store.getFile (s : Store) (path branch : String) : Option FileEntry :=
  (s.files.find? (fun e => decide (e.1 = (path, branch)))).map (fun e => e.2)

/-- Modelled from the spec: conditional write, succeeding only when the
supplied version token matches the stored one; on success the entry
receives content `d` and the fresh token `s.nextSha`. -/
def Store.update_file_content (s : Store) (path branch : String) (d : Doc)
    (expected_sha : Nat) : Option Store :=
  match s.getFile path branch with
  | none => none
  | some entry =>
    if entry.sha = expected_sha then
      some { s with
        files := s.files.map (fun e =>
          if e.1 = (path, branch) then (e.1, ⟨d, s.nextSha⟩) else e),
        nextSha := s.nextSha + 1 }
    else none

/-- Well-formedness of a store snapshot: every stored version token is
strictly below the fresh-token counter. -/
def Store.wf (s : Store) : Prop :=
  ∀ p b e, s.getFile p b = some e → e.sha < s.nextSha

/-! ### Path and branch naming (LDNPullRequest helpers, core/mod.rs) -/

def LDNPullRequest.application_branch_name (application_id : String) : String :=
  "Application/" ++ application_id

def LDNPullRequest.application_path (application_id : String) : String :=
  application_id ++ ".json"

def LDNPullRequest.application_move_to_governance_review : String :=
  "Application is under review of governance team"

def LDNPullRequest.application_move_to_proposal_commit (actor : String) : String :=
  "Governance Team User " ++ actor ++
    " Moved Application to Proposal State from Governance Review State"

def LDNPullRequest.application_move_to_approval_commit (actor : String) : String :=
  "Notary User " ++ actor ++
    " Moved Application to Approval State from Proposal State"

def LDNPullRequest.application_move_to_confirmed_commit (actor : String) : String :=
  "Notary User " ++ actor ++
    " Moved Application to Confirmed State from Proposal Approval"

/-- `LDNPullRequest::add_commit_to`: one conditional write through the
adapter carrying the supplied version token; `None` when the update is
rejected.  The commit message is recorded by the adapter only, so the
model takes it but the store keeps content and token. -/
def LDNPullRequest.add_commit_to (path branch_name _commit_message : String)
    (new_content : Doc) (file_sha : Nat) (s : Store) : Option Store :=
  s.update_file_content path branch_name new_content file_sha

/-! ### Orchestrator: LDNApplication (core/mod.rs) -/

/-- The loaded handle on an application: its id plus the file location
and version token captured at load time. -/
structure LDNApplication where
  application_id : String
  file_sha : Nat
  file_name : String
  branch_name : String
  deriving DecidableEq, Repr

structure CompleteGovernanceReviewInfo where
  actor : String
  deriving DecidableEq, Repr

structure CompleteNewApplicationProposalInfo where
  signer : Notary
  request_id : String
  deriving DecidableEq, Repr

structure RefillInfo where
  id : String
  amount : String
  amount_type : String
  deriving DecidableEq, Repr

/-- `content_items_to_app_file`: decode the fetched document into an
application file, failing with a corruption error otherwise. -/
def content_items_to_app_file : Doc → Except LDNError ApplicationFile
  | .app a => .ok a
  | .raw _ => .error (.Load "Application issue file is corrupted")

/-- `LDNApplication::file`: read the document at the path and branch
derived from the application id and parse it. -/
def LDNApplication.file (self : LDNApplication) (s : Store) :
    Except LDNError ApplicationFile :=
  match s.getFile (LDNPullRequest.application_path self.application_id)
      (LDNPullRequest.application_branch_name self.application_id) with
  | some entry => content_items_to_app_file entry.doc
  | none => .error (.Load "Application issue file does not exist")

/-- `LDNApplication::app_state`: the lifecycle state of the loaded
document. -/
def LDNApplication.app_state (self : LDNApplication) (s : Store) :
    Except LDNError AppState :=
  match self.file s with
  | .ok f => .ok f.lifecycle.get_state
  | .error e => .error e

/-- The commit step shared verbatim by the three transition functions in
core/mod.rs: attempt the conditional write with the version token
captured at load time; report the new file on success and an error with
the untouched store on rejection. -/
def LDNApplication.commitStep (self : LDNApplication) (msg : String)
    (f : ApplicationFile) (errMsg : String) (s : Store) :
    Except LDNError ApplicationFile × Store :=
  match LDNPullRequest.add_commit_to self.file_name self.branch_name msg
      (Doc.app f) self.file_sha s with
  | some s1 => (.ok f, s1)
  | none => (.error (.New errMsg), s)

/-- `complete_governance_review`: move the application from
GovernanceReview to ReadyToSign, creating the initial allocation
request.  The fresh uuid is passed explicitly (the source draws it from
a random generator). -/
def LDNApplication.complete_governance_review (self : LDNApplication)
    (info : CompleteGovernanceReviewInfo) (uuid : String) (s : Store) :
    Except LDNError ApplicationFile × Store :=
  match self.app_state s with
  | .ok st =>
    match st with
    | .GovernanceReview =>
      match self.file s with
      | .ok app_file =>
        let request := AllocationRequest.new info.actor uuid .First
          app_file.datacap.total_requested_amount
        let app_file1 := app_file.complete_governance_review info.actor request
        self.commitStep
          (LDNPullRequest.application_move_to_proposal_commit info.actor)
          app_file1 "cannot be triggered(1)" s
      | .error e => (.error e, s)
    | _ => (.error (.New "cannot be triggered(2)"), s)
  | .error _ => (.error (.New "cannot be triggered(3)"), s)

/-- `complete_new_application_proposal`: move the application from
ReadyToSign to StartSignDatacap, appending the first signer; rejects
when `request_id` does not reference the active allocation request. -/
def LDNApplication.complete_new_application_proposal (self : LDNApplication)
    (info : CompleteNewApplicationProposalInfo) (s : Store) :
    Except LDNError ApplicationFile × Store :=
  match self.app_state s with
  | .ok st =>
    match st with
    | .ReadyToSign =>
      match self.file s with
      | .ok app_file =>
        if allocationIs_active app_file.allocation info.request_id = false then
          (.error (.Load ("Request " ++ info.request_id ++ " is not active")), s)
        else
          let app_lifecycle := app_file.lifecycle.finish_proposal
          let app_file1 := app_file.add_signer_to_allocation info.signer
            info.request_id app_lifecycle
          self.commitStep
            (LDNPullRequest.application_move_to_approval_commit
              info.signer.signing_address)
            app_file1 "cannot be proposed(1)" s
      | .error e => (.error e, s)
    | _ => (.error (.New "cannot be proposed(2)"), s)
  | .error _ => (.error (.New "cannot be proposed(3)"), s)

/-- `complete_new_application_approval`: move the application from
StartSignDatacap to Granted, appending the second signer.  Note that,
unlike the proposal step, the source performs no activeness check on
`request_id` here. -/
def LDNApplication.complete_new_application_approval (self : LDNApplication)
    (info : CompleteNewApplicationProposalInfo) (s : Store) :
    Except LDNError ApplicationFile × Store :=
  match self.app_state s with
  | .ok st =>
    match st with
    | .StartSignDatacap =>
      match self.file s with
      | .ok app_file =>
        let app_lifecycle := app_file.lifecycle.finish_approval
        let app_file1 := app_file.add_signer_to_allocation_and_complete
          info.signer info.request_id app_lifecycle
        self.commitStep
          (LDNPullRequest.application_move_to_confirmed_commit
            info.signer.signing_address)
          app_file1 "cannot be proposed(1)" s
      | .error e => (.error e, s)
    | _ => (.error (.New "cannot be proposed(2)"), s)
  | .error _ => (.error (.New "cannot be proposed(3)"), s)

/-- The three transition events of the engine, used to state properties
uniformly over `complete_governance_review`,
`complete_new_application_proposal` and
`complete_new_application_approval`. -/
inductive TransitionCall where
  | review (info : CompleteGovernanceReviewInfo) (uuid : String)
  | proposal (info : CompleteNewApplicationProposalInfo)
  | approval (info : CompleteNewApplicationProposalInfo)
  deriving DecidableEq, Repr

def runTransition : TransitionCall → LDNApplication → Store →
    Except LDNError ApplicationFile × Store
  | .review info uuid, self, s => self.complete_governance_review info uuid s
  | .proposal info, self, s => self.complete_new_application_proposal info s
  | .approval info, self, s => self.complete_new_application_approval info s

/-- Required source state of each transition event, read off the state
matches in core/mod.rs. -/
def requiredState : TransitionCall → AppState
  | .review _ _ => .GovernanceReview
  | .proposal _ => .ReadyToSign
  | .approval _ => .StartSignDatacap

/-! ### Application directory (active and merged listings) -/

/-- Outcome of fetching and parsing one remote document: the fetch
itself can fail, the body can fail to parse, or it yields an
application file. -/
inductive FetchResult where
  | fetchError
  | corrupt
  | ok (a : ApplicationFile)
  deriving DecidableEq, Repr

/-- One open pull request together with its single staged file: the
file version token, its filename, the head branch, and the outcome of
fetching its raw content. -/
structure PullRequestData where
  number : Nat
  head_ref : String
  file_sha : Nat
  filename : String
  fetched : FetchResult
  deriving DecidableEq, Repr

/-- `futures::future::try_join_all` over a list of fallible fetches:
all-or-nothing, the first error fails the whole join. -/
def tryJoinAll {α β : Type} (f : α → Except LDNError β) :
    List α → Except LDNError (List β)
  | [] => .ok []
  | x :: xs =>
    match f x, tryJoinAll f xs with
    | .ok y, .ok ys => .ok (y :: ys)
    | .error e, _ => .error e
    | .ok _, .error e => .error e

/-- `LDNApplication::load_pr_files`: fetch the first file of a pull
request and parse it.  Every failure in the source is an `unwrap`, so a
failed fetch or parse aborts with a panic. -/
def LDNApplication.load_pr_files (pr : PullRequestData) :
    Except LDNError (Nat × String × ApplicationFile × PullRequestData) :=
  match pr.fetched with
  | .ok a => .ok (pr.file_sha, pr.filename, a, pr)
  | .fetchError => .error .Panic
  | .corrupt => .error .Panic

/-- `LDNApplication::active`: one entry per open pull request, joined
all-or-nothing, optionally filtered by application id. -/
def LDNApplication.active (filter : Option String)
    (prs : List PullRequestData) : Except LDNError (List ApplicationFile) :=
  match tryJoinAll LDNApplication.load_pr_files prs with
  | .error e => .error e
  | .ok loaded =>
    let apps := loaded.map (fun r => r.2.2.1)
    match filter with
    | none => .ok apps
    | some f => .ok (apps.filter (fun a => a.id == f))

/-- `LDNApplication::load`: find the open pull request whose staged
application carries the requested id and capture its location and
version token; fails with an empty `Load` error when no pull request
matches. -/
def LDNApplication.load (application_id : String)
    (prs : List PullRequestData) : Except LDNError LDNApplication :=
  match tryJoinAll LDNApplication.load_pr_files prs with
  | .error e => .error e
  | .ok loaded =>
    match loaded.find? (fun r => r.2.2.1.id == application_id) with
    | some r =>
      .ok { application_id := r.2.2.1.id, file_sha := r.1,
            file_name := r.2.1, branch_name := r.2.2.2.head_ref }
    | none => .error (.Load "")

/-- One file of the committed main line, as listed by
`get_all_files`: its path, version token, optional download URL and the
outcome of fetching that URL. -/
structure Content where
  path : String
  sha : Nat
  download_url : Option String
  fetched : FetchResult
  deriving DecidableEq, Repr

/-- `LDNApplication::think_merged`: fetch one main-line file; a fetch
failure, a parse failure, or a document whose lifecycle is no longer
active all turn into a `Load` error. -/
def LDNApplication.think_merged (item : Content) :
    Except LDNError (Content × ApplicationFile) :=
  match item.fetched with
  | .fetchError =>
    .error (.Load "Failed to fetch application files from their URLs. Reason: e")
  | .corrupt =>
    .error (.Load "Failed to fetch application files from their URLs")
  | .ok app =>
    if app.lifecycle.is_active then .ok (item, app)
    else .error (.Load "Failed to fetch application files from their URLs")

/-- `LDNApplication::merged`: fetch every main-line file that carries a
download URL (all-or-nothing), then keep the applications whose
lifecycle is active and whose id is not reported by the active set. -/
def LDNApplication.merged (mainFiles : List Content)
    (prs : List PullRequestData) :
    Except LDNError (List (Content × ApplicationFile)) :=
  match tryJoinAll LDNApplication.think_merged
      (mainFiles.filter (fun c => c.download_url.isSome)) with
  | .error e => .error e
  | .ok all_files =>
    match LDNApplication.active none prs with
    | .error e => .error e
    | .ok act =>
      .ok (all_files.filter (fun ca =>
        (act.find? (fun a => a.id == ca.2.id)).isNone
          && ca.2.lifecycle.is_active))

/-- Writes issued against the store by the refill-shaped operations
(`create_refill_pr` in the source). -/
inductive WriteOp where
  | refillPr (application_id : String) (owner : String) (file_sha : Nat)
      (doc : ApplicationFile)
  deriving DecidableEq, Repr

/-- `LDNApplication::total_dc_reached`: look the application up in the
merged set; for a Granted application, mark it archival, reload the
application handle from the open pull requests, read the main-line copy
of its file and commit the snapshot through `create_refill_pr`; any
other state answers `false`.  The function returns the call result
together with the writes it issued. -/
def LDNApplication.total_dc_reached (application_id : String)
    (mainFiles : List Content) (prs : List PullRequestData) :
    Except LDNError Bool × List WriteOp :=
  match LDNApplication.merged mainFiles prs with
  | .error e => (.error e, [])
  | .ok m =>
    match m.find? (fun ca => ca.2.id == application_id) with
    | none =>
      (.error (.Load ("Application issue " ++ application_id ++
        " does not exist")), [])
    | some ca =>
      match ca.2.lifecycle.get_state with
      | .Granted =>
        let app := ca.2.reached_total_datacap
        match LDNApplication.load application_id prs with
        | .error e => (.error e, [])
        | .ok ldn_app =>
          match mainFiles.find? (fun c => c.path == ldn_app.file_name) with
          | none => (.error .Panic, [])
          | some item =>
            (.ok true, [.refillPr app.id app.client.name item.sha app])
      | _ => (.ok false, [])

/-- `LDNApplication::refill`: look the application up in the merged
set, build the new refill allocation request (the source hard-codes the
sequence number 0) and commit the extended document through
`create_refill_pr`.  The fresh uuid is passed explicitly. -/
def LDNApplication.refill (refill_info : RefillInfo) (uuid : String)
    (mainFiles : List Content) (prs : List PullRequestData) :
    Except LDNError Bool × List WriteOp :=
  match LDNApplication.merged mainFiles prs with
  | .error e => (.error e, [])
  | .ok apps =>
    match apps.find? (fun ca => ca.2.id == refill_info.id) with
    | some ca =>
      let new_request := AllocationRequest.new "SSA Bot" uuid
        (.Refill 0) (refill_info.amount ++ refill_info.amount_type)
      let app_file := ca.2.start_refill_request new_request
      (.ok true, [.refillPr ca.2.id ca.2.client.name ca.1.sha app_file])
    | none => (.error (.Load "Failed to get application file"), [])

/-! ### Creating an application (new_from_issue) -/

/-- The structured data parsed from the source ticket (issue body
parsing is out of scope; the parsed value is an input of the model). -/
structure ParsedIssueData where
  id : String
  client : Client
  datacap : Datacap
  deriving DecidableEq, Repr

/-- Store operations logged by `new_from_issue`. -/
inductive StoreOp where
  | createBranch (name : String)
  | commitFile (path branch : String) (doc : Doc) (message : String)
  deriving DecidableEq, Repr

/-- `LDNApplication::new_from_issue`: reject when a document already
exists at the path and branch derived from the parsed application id;
otherwise create the staging branch (named, as in the source, from the
issue number), commit the `\x7b\x7d` placeholder through
`create_empty_pr`, and commit the initial application document (the
result of that second commit is discarded by the source).  Returns the
result, the final store and the log of issued store operations. -/
def LDNApplication.new_from_issue (issue_number : String)
    (parsed : ParsedIssueData) (s : Store) :
    Except LDNError LDNApplication × Store × List StoreOp :=
  let application_id := parsed.id
  let app_path := LDNPullRequest.application_path application_id
  let app_branch_name := LDNPullRequest.application_branch_name application_id
  match s.getFile app_path app_branch_name with
  | some _ =>
    (.error (.New ("Application issue " ++ application_id ++
      " already exists")), s, [])
  | none =>
    let pr_branch := LDNPullRequest.application_branch_name issue_number
    let file_sha := s.nextSha
    let s1 : Store :=
      { s with
        branches := pr_branch :: s.branches,
        files := ((app_path, pr_branch), ⟨.raw "\x7b\x7d", file_sha⟩) :: s.files,
        nextSha := s.nextSha + 1 }
    let application_file := ApplicationFile.new issue_number parsed.id
      parsed.client parsed.datacap
    let s2 := match LDNPullRequest.add_commit_to app_path app_branch_name
        LDNPullRequest.application_move_to_governance_review
        (Doc.app application_file) file_sha s1 with
      | some s9 => s9
      | none => s1
    (.ok { application_id := application_id, file_sha := file_sha,
           file_name := app_path, branch_name := app_branch_name },
     s2,
     [.createBranch pr_branch,
      .commitFile app_path pr_branch (.raw "\x7b\x7d")
        ("Start Application: " ++ parsed.client.name ++ "-" ++ application_id),
      .commitFile app_path app_branch_name (Doc.app application_file)
        LDNPullRequest.application_move_to_governance_review])

/-! ### Amount arithmetic, modelled from the spec for claim C4 -/

/-- Digit-accumulating helper for parseAmount. -/
def leadingDigits : List Char → Nat → Nat
  | [], acc => acc
  | c :: cs, acc =>
    if c.isDigit then leadingDigits cs (acc * 10 + (c.toNat - 48)) else acc

/-- Modelled from the spec: numeric quantity of an opaque
quantity-plus-unit amount string (its leading decimal digits). -/
def parseAmount (s : String) : Nat :=
  leadingDigits s.data 0

/-- Modelled from the spec: cumulative granted amount, the total over
the allocation requests that have collected the required two signer
approvals. -/
def grantedAmount (app : ApplicationFile) : Nat :=
  (app.allocation.filter (fun a => 2 ≤ a.signers.length)).foldl
    (fun acc a => acc + parseAmount a.amount) 0

/-- Modelled from the spec: the cumulative granted amount meets the
total requested amount. -/
def totalDatacapReached (app : ApplicationFile) : Bool :=
  decide (parseAmount app.datacap.total_requested_amount ≤ grantedAmount app)

/-! ### Helper lemmas about the store -/

theorem find?_update_list (l : List (Loc × FileEntry)) (k : Loc)
    (v : FileEntry)
    (h : (l.find? (fun e => decide (e.1 = k))).isSome = true) :
    ((l.map (fun e => if e.1 = k then (e.1, v) else e)).find?
        (fun e => decide (e.1 = k))) = some (k, v) := by
  induction l with
  | nil => simp [List.find?] at h
  | cons x xs ih =>
    by_cases hx : x.1 = k
    · simp [List.find?, hx]
    · have h1 : (xs.find? (fun e => decide (e.1 = k))).isSome = true := by
        simpa [List.find?, hx] using h
      simpa [List.find?, hx] using ih h1

theorem update_file_content_eq_some {s s' : Store} {p b : String} {d : Doc}
    {sha : Nat} (h : s.update_file_content p b d sha = some s') :
    (∃ entry, s.getFile p b = some entry ∧ entry.sha = sha)
    ∧ s'.getFile p b = some ⟨d, s.nextSha⟩
    ∧ s'.nextSha = s.nextSha + 1 := by
  unfold Store.update_file_content at h
  split at h
  · exact absurd h (by simp)
  · rename_i entry hg
    split at h
    · rename_i he
      injection h with h1
      subst h1
      refine ⟨⟨entry, hg, he⟩, ?_, rfl⟩
      have hsome : ((s.files).find? (fun e => decide (e.1 = (p, b)))).isSome = true := by
        unfold Store.getFile at hg
        cases hf : (s.files).find? (fun e => decide (e.1 = (p, b))) with
        | none => rw [hf] at hg; simp at hg
        | some x => simp [hf]
      show (((s.files.map (fun e =>
          if e.1 = (p, b) then (e.1, (⟨d, s.nextSha⟩ : FileEntry)) else e)).find?
            (fun e => decide (e.1 = (p, b)))).map (fun e => e.2)) = _
      rw [find?_update_list s.files (p, b) ⟨d, s.nextSha⟩ hsome]
      rfl
    · exact absurd h (by simp)

theorem update_file_content_none_of_sha_ne {s : Store} {p b : String}
    {d : Doc} {sha : Nat} {entry : FileEntry}
    (hg : s.getFile p b = some entry) (hne : entry.sha ≠ sha) :
    s.update_file_content p b d sha = none := by
  unfold Store.update_file_content
  rw [hg]
  simp [hne]

/-! ### Helper lemmas about the transitions -/

theorem commitStep_cases (self : LDNApplication) (msg : String)
    (f : ApplicationFile) (errMsg : String) (s : Store) :
    (∃ s1, Store.update_file_content s self.file_name self.branch_name
        (Doc.app f) self.file_sha = some s1
      ∧ self.commitStep msg f errMsg s = (.ok f, s1))
    ∨ (Store.update_file_content s self.file_name self.branch_name
        (Doc.app f) self.file_sha = none
      ∧ self.commitStep msg f errMsg s = (.error (.New errMsg), s)) := by
  unfold LDNApplication.commitStep LDNPullRequest.add_commit_to
  cases hu : Store.update_file_content s self.file_name self.branch_name
      (Doc.app f) self.file_sha with
  | some s1 => exact Or.inl ⟨s1, rfl, rfl⟩
  | none => exact Or.inr ⟨rfl, rfl⟩

theorem app_state_eq {self : LDNApplication} {s : Store}
    {app : ApplicationFile} {entry : FileEntry}
    (hget : s.getFile (LDNPullRequest.application_path self.application_id)
      (LDNPullRequest.application_branch_name self.application_id) = some entry)
    (hdoc : entry.doc = .app app) :
    self.app_state s = .ok app.lifecycle.state ∧ self.file s = .ok app := by
  have hf : self.file s = .ok app := by
    unfold LDNApplication.file
    rw [hget]
    show content_items_to_app_file entry.doc = .ok app
    rw [hdoc]
    rfl
  refine ⟨?_, hf⟩
  unfold LDNApplication.app_state
  rw [hf]
  rfl

/-- Every error path of a transition leaves the store untouched, and
every success goes through exactly one conditional write carrying the
version token captured at load time. -/
theorem runTransition_shape (t : TransitionCall) (self : LDNApplication)
    (s : Store) :
    (∃ f s1, (runTransition t self s) = (.ok f, s1)
      ∧ Store.update_file_content s self.file_name self.branch_name
          (Doc.app f) self.file_sha = some s1)
    ∨ (∃ e, runTransition t self s = (.error e, s)) := by
  cases t with
  | review info uuid =>
    simp only [runTransition]
    unfold LDNApplication.complete_governance_review
    cases hst : self.app_state s with
    | error e => exact Or.inr ⟨_, rfl⟩
    | ok st =>
      cases st with
      | GovernanceReview =>
        cases hf : self.file s with
        | error e => exact Or.inr ⟨_, rfl⟩
        | ok app_file =>
          rcases commitStep_cases self
              (LDNPullRequest.application_move_to_proposal_commit info.actor)
              (app_file.complete_governance_review info.actor
                (AllocationRequest.new info.actor uuid .First
                  app_file.datacap.total_requested_amount))
              "cannot be triggered(1)" s with
            ⟨s1, hu, hc⟩ | ⟨hu, hc⟩
          · exact Or.inl ⟨_, s1, hc, hu⟩
          · exact Or.inr ⟨_, hc⟩
      | ReadyToSign => exact Or.inr ⟨_, rfl⟩
      | StartSignDatacap => exact Or.inr ⟨_, rfl⟩
      | Granted => exact Or.inr ⟨_, rfl⟩
  | proposal info =>
    simp only [runTransition]
    unfold LDNApplication.complete_new_application_proposal
    cases hst : self.app_state s with
    | error e => exact Or.inr ⟨_, rfl⟩
    | ok st =>
      cases st with
      | ReadyToSign =>
        cases hf : self.file s with
        | error e => exact Or.inr ⟨_, rfl⟩
        | ok app_file =>
          cases hact : allocationIs_active app_file.allocation info.request_id with
          | false =>
            refine Or.inr ⟨.Load ("Request " ++ info.request_id ++ " is not active"), ?_⟩
            simp only [hact]
            rfl
          | true =>
            rcases commitStep_cases self
                (LDNPullRequest.application_move_to_approval_commit
                  info.signer.signing_address)
                (app_file.add_signer_to_allocation info.signer info.request_id
                  app_file.lifecycle.finish_proposal)
                "cannot be proposed(1)" s with
              ⟨s1, hu, hc⟩ | ⟨hu, hc⟩
            · refine Or.inl ⟨_, s1, ?_, hu⟩
              simp only [hact]
              exact hc
            · refine Or.inr ⟨.New "cannot be proposed(1)", ?_⟩
              simp only [hact]
              exact hc
      | GovernanceReview => exact Or.inr ⟨_, rfl⟩
      | StartSignDatacap => exact Or.inr ⟨_, rfl⟩
      | Granted => exact Or.inr ⟨_, rfl⟩
  | approval info =>
    simp only [runTransition]
    unfold LDNApplication.complete_new_application_approval
    cases hst : self.app_state s with
    | error e => exact Or.inr ⟨_, rfl⟩
    | ok st =>
      cases st with
      | StartSignDatacap =>
        cases hf : self.file s with
        | error e => exact Or.inr ⟨_, rfl⟩
        | ok app_file =>
          rcases commitStep_cases self
              (LDNPullRequest.application_move_to_confirmed_commit
                info.signer.signing_address)
              (app_file.add_signer_to_allocation_and_complete info.signer
                info.request_id app_file.lifecycle.finish_approval)
              "cannot be proposed(1)" s with
            ⟨s1, hu, hc⟩ | ⟨hu, hc⟩
          · exact Or.inl ⟨_, s1, hc, hu⟩
          · exact Or.inr ⟨_, hc⟩
      | GovernanceReview => exact Or.inr ⟨_, rfl⟩
      | ReadyToSign => exact Or.inr ⟨_, rfl⟩
      | Granted => exact Or.inr ⟨_, rfl⟩

theorem runTransition_state_mismatch (t : TransitionCall)
    (self : LDNApplication) (s : Store) (st : AppState)
    (hst : self.app_state s = .ok st) (hne : st ≠ requiredState t) :
    ∃ e, runTransition t self s = (.error e, s) := by
  cases t with
  | review info uuid =>
    simp only [runTransition]
    unfold LDNApplication.complete_governance_review
    rw [hst]
    cases st with
    | GovernanceReview => exact absurd rfl hne
    | ReadyToSign => exact ⟨_, rfl⟩
    | StartSignDatacap => exact ⟨_, rfl⟩
    | Granted => exact ⟨_, rfl⟩
  | proposal info =>
    simp only [runTransition]
    unfold LDNApplication.complete_new_application_proposal
    rw [hst]
    cases st with
    | ReadyToSign => exact absurd rfl hne
    | GovernanceReview => exact ⟨_, rfl⟩
    | StartSignDatacap => exact ⟨_, rfl⟩
    | Granted => exact ⟨_, rfl⟩
  | approval info =>
    simp only [runTransition]
    unfold LDNApplication.complete_new_application_approval
    rw [hst]
    cases st with
    | StartSignDatacap => exact absurd rfl hne
    | GovernanceReview => exact ⟨_, rfl⟩
    | ReadyToSign => exact ⟨_, rfl⟩
    | Granted => exact ⟨_, rfl⟩

/-! ### Helper lemmas about the all-or-nothing join -/

theorem tryJoinAll_cons {α β : Type} (f : α → Except LDNError β) (x : α)
    (xs : List α) :
    tryJoinAll f (x :: xs) =
      match f x, tryJoinAll f xs with
      | .ok y, .ok ys => .ok (y :: ys)
      | .error e, _ => .error e
      | .ok _, .error e => .error e := rfl

theorem tryJoinAll_ok_cons {α β : Type} {f : α → Except LDNError β} {x : α}
    {xs : List α} {ys : List β} (h : tryJoinAll f (x :: xs) = .ok ys) :
    ∃ y tl, f x = .ok y ∧ tryJoinAll f xs = .ok tl ∧ ys = y :: tl := by
  rw [tryJoinAll_cons] at h
  cases hx : f x with
  | error e => rw [hx] at h; exact absurd h (by simp)
  | ok y =>
    cases ht : tryJoinAll f xs with
    | error e => rw [hx, ht] at h; exact absurd h (by simp)
    | ok tl =>
      rw [hx, ht] at h
      injection h with h1
      exact ⟨y, tl, rfl, rfl, h1.symm⟩

theorem tryJoinAll_error_of_mem {α β : Type} {f : α → Except LDNError β}
    {x : α} {xs : List α} (hx : x ∈ xs) {e : LDNError}
    (hfx : f x = .error e) :
    ∃ e1, tryJoinAll f xs = .error e1 := by
  induction xs with
  | nil => cases hx
  | cons y ys ih =>
    rw [tryJoinAll_cons]
    rcases List.mem_cons.mp hx with rfl | hmem
    · rw [hfx]; exact ⟨e, rfl⟩
    · cases hfy : f y with
      | error e2 => exact ⟨e2, rfl⟩
      | ok v =>
        obtain ⟨e1, he1⟩ := ih hmem
        rw [he1]
        exact ⟨e1, rfl⟩

theorem tryJoinAll_ok_mem_fwd {α β : Type} {f : α → Except LDNError β}
    {xs : List α} {ys : List β} (h : tryJoinAll f xs = .ok ys) :
    ∀ y ∈ ys, ∃ x ∈ xs, f x = .ok y := by
  induction xs generalizing ys with
  | nil =>
    unfold tryJoinAll at h
    injection h with h1
    subst h1
    intro y hy
    cases hy
  | cons x xs ih =>
    obtain ⟨v, tl, hfx, htl, rfl⟩ := tryJoinAll_ok_cons h
    intro y hy
    rcases List.mem_cons.mp hy with rfl | hmem
    · exact ⟨x, List.mem_cons_self x xs, hfx⟩
    · obtain ⟨x1, hx1, hfx1⟩ := ih htl y hmem
      exact ⟨x1, List.mem_cons_of_mem x hx1, hfx1⟩

theorem tryJoinAll_ok_mem_rev {α β : Type} {f : α → Except LDNError β}
    {xs : List α} {ys : List β} (h : tryJoinAll f xs = .ok ys) :
    ∀ x ∈ xs, ∃ y ∈ ys, f x = .ok y := by
  induction xs generalizing ys with
  | nil => intro x hx; cases hx
  | cons x1 xs ih =>
    obtain ⟨v, tl, hfx, htl, rfl⟩ := tryJoinAll_ok_cons h
    intro x hx
    rcases List.mem_cons.mp hx with rfl | hmem
    · exact ⟨v, List.mem_cons_self v tl, hfx⟩
    · obtain ⟨y, hy, hfy⟩ := ih htl x hmem
      exact ⟨y, List.mem_cons_of_mem v hy, hfy⟩

theorem tryJoinAll_ok_length {α β : Type} {f : α → Except LDNError β}
    {xs : List α} {ys : List β} (h : tryJoinAll f xs = .ok ys) :
    ys.length = xs.length := by
  induction xs generalizing ys with
  | nil =>
    unfold tryJoinAll at h
    injection h with h1
    subst h1
    rfl
  | cons x xs ih =>
    obtain ⟨v, tl, hfx, htl, rfl⟩ := tryJoinAll_ok_cons h
    simp [ih htl]

theorem update_file_content_some_of_sha_eq {s : Store} {p b : String}
    {d : Doc} {sha : Nat} {entry : FileEntry}
    (hg : s.getFile p b = some entry) (he : entry.sha = sha) :
    ∃ s1, s.update_file_content p b d sha = some s1 := by
  unfold Store.update_file_content
  simp only [hg]
  rw [if_pos he]
  exact ⟨_, rfl⟩

/-! ### Concrete fixtures used by witnesses and counterexamples -/

def sigBob : Notary := ⟨"bob", "t1", "cid1"⟩

def sigCarol : Notary := ⟨"carol", "t2", "cid2"⟩

def appSign : ApplicationFile :=
  ⟨"app1", "1", ⟨"clientA"⟩, ⟨"100"⟩,
    [⟨"alice", "r1", .First, "100", [sigBob]⟩], ⟨.StartSignDatacap, true⟩⟩

def entrySign : FileEntry := ⟨.app appSign, 5⟩

def storeSign : Store :=
  ⟨[(("app1.json", "Application/app1"), entrySign)], ["Application/app1"], 6⟩

def selfSign : LDNApplication := ⟨"app1", 5, "app1.json", "Application/app1"⟩

def infoBogus : CompleteNewApplicationProposalInfo := ⟨sigCarol, "bogus"⟩

def appGov : ApplicationFile :=
  ⟨"app3", "3", ⟨"clientC"⟩, ⟨"100"⟩, [], ⟨.GovernanceReview, true⟩⟩

def entryGov : FileEntry := ⟨.app appGov, 2⟩

def storeGov : Store :=
  ⟨[(("app3.json", "Application/app3"), entryGov)], ["Application/app3"], 3⟩

def selfGov : LDNApplication := ⟨"app3", 2, "app3.json", "Application/app3"⟩

def appGranted : ApplicationFile :=
  ⟨"app2", "2", ⟨"clientB"⟩, ⟨"100"⟩,
    [⟨"alice", "r1", .First, "100", [sigBob, sigCarol]⟩], ⟨.Granted, true⟩⟩

def contentGranted : Content := ⟨"app2.json", 9, some "u", .ok appGranted⟩

def appArchived : ApplicationFile :=
  ⟨"app4", "4", ⟨"clientD"⟩, ⟨"100"⟩,
    [⟨"alice", "r4", .First, "100", [sigBob, sigCarol]⟩], ⟨.Granted, false⟩⟩

def contentArchived : Content := ⟨"app4.json", 11, some "u", .ok appArchived⟩

def prOk : PullRequestData := ⟨7, "Application/app1", 5, "app1.json", .ok appSign⟩

def prBad : PullRequestData := ⟨8, "Application/appX", 6, "appX.json", .fetchError⟩

def parsedFix : ParsedIssueData := ⟨"app5", ⟨"clientE"⟩, ⟨"200"⟩⟩

def storeEmpty : Store := ⟨[], [], 0⟩

/-! ### Claim C1 -/

/-- C1 counterexample: in state StartSignDatacap, the approve operation
does not perform the activeness check of propose.  At this concrete
input the supplied request id "bogus" does not reference the active
allocation request, yet the call succeeds and writes to the store
instead of rejecting without a write. -/
theorem approve_skips_activeness_check_cex :
    allocationIs_active appSign.allocation "bogus" = false
    ∧ appSign.lifecycle.get_state = .StartSignDatacap
    ∧ exOk (selfSign.complete_new_application_approval infoBogus storeSign).1 = true
    ∧ (selfSign.complete_new_application_approval infoBogus storeSign).2 ≠ storeSign := by
  decide

/-- C1 (amended): for an application in state StartSignDatacap whose
document and version token were loaded consistently, approve appends
the supplied signer to the allocation request matching the supplied
request id (whether or not that request is the active one - no
activeness check is performed), moves the lifecycle state to Granted
and commits the result. -/
theorem approve_appends_signer_and_grants (self : LDNApplication)
    (info : CompleteNewApplicationProposalInfo) (s : Store)
    (app : ApplicationFile) (entry : FileEntry)
    (hget : s.getFile (LDNPullRequest.application_path self.application_id)
      (LDNPullRequest.application_branch_name self.application_id) = some entry)
    (hdoc : entry.doc = .app app)
    (hstate : app.lifecycle.state = .StartSignDatacap)
    (hname : self.file_name = LDNPullRequest.application_path self.application_id)
    (hbranch : self.branch_name =
      LDNPullRequest.application_branch_name self.application_id)
    (hsha : self.file_sha = entry.sha) :
    ∃ f, (self.complete_new_application_approval info s).1 = .ok f
      ∧ f.allocation = addSignerToList app.allocation info.signer info.request_id
      ∧ f.lifecycle.state = .Granted
      ∧ (self.complete_new_application_approval info s).2.getFile
          self.file_name self.branch_name = some ⟨Doc.app f, s.nextSha⟩ := by
  obtain ⟨hst, hf⟩ := app_state_eq hget hdoc
  rw [hstate] at hst
  have hg2 : s.getFile self.file_name self.branch_name = some entry := by
    rw [hname, hbranch]; exact hget
  obtain ⟨s1, hupd⟩ := update_file_content_some_of_sha_eq
    (d := Doc.app (app.add_signer_to_allocation_and_complete info.signer
      info.request_id app.lifecycle.finish_approval)) hg2 hsha.symm
  obtain ⟨-, hget1, -⟩ := update_file_content_eq_some hupd
  have hrun : self.complete_new_application_approval info s =
      (.ok (app.add_signer_to_allocation_and_complete info.signer
        info.request_id app.lifecycle.finish_approval), s1) := by
    unfold LDNApplication.complete_new_application_approval
    simp only [hst, hf]
    unfold LDNApplication.commitStep LDNPullRequest.add_commit_to
    rw [hupd]
  refine ⟨app.add_signer_to_allocation_and_complete info.signer
    info.request_id app.lifecycle.finish_approval, ?_, rfl, rfl, ?_⟩
  · rw [hrun]
  · rw [hrun]
    exact hget1

/-- C1 amended claim at the counterexample input, discharging every
hypothesis at a concrete store. -/
theorem approve_appends_signer_and_grants_witness :
    ∃ f, (selfSign.complete_new_application_approval infoBogus storeSign).1 = .ok f
      ∧ f.allocation = addSignerToList appSign.allocation infoBogus.signer
          infoBogus.request_id
      ∧ f.lifecycle.state = .Granted
      ∧ (selfSign.complete_new_application_approval infoBogus storeSign).2.getFile
          selfSign.file_name selfSign.branch_name
          = some ⟨Doc.app f, storeSign.nextSha⟩ :=
  approve_appends_signer_and_grants selfSign infoBogus storeSign appSign
    entrySign (by decide) (by decide) (by decide) (by decide) (by decide)
    (by decide)

/-! ### Claim C3 -/

/-- C3: every transition event applied to an application whose current
lifecycle state is not the required source state of that event is
rejected with an error, and the store (hence the persisted serialized
document) is left exactly as it was. -/
theorem event_rejected_on_state_mismatch (t : TransitionCall)
    (self : LDNApplication) (s : Store) (app : ApplicationFile)
    (entry : FileEntry)
    (hget : s.getFile (LDNPullRequest.application_path self.application_id)
      (LDNPullRequest.application_branch_name self.application_id) = some entry)
    (hdoc : entry.doc = .app app)
    (hne : app.lifecycle.state ≠ requiredState t) :
    ∃ e, runTransition t self s = (.error e, s) := by
  obtain ⟨hst, -⟩ := app_state_eq hget hdoc
  exact runTransition_state_mismatch t self s app.lifecycle.state hst hne

/-- C3 at a concrete input: proposing against an application still in
GovernanceReview is rejected and the store is untouched. -/
theorem event_rejected_on_state_mismatch_witness :
    ∃ e, runTransition (.proposal infoBogus) selfGov storeGov
      = (.error e, storeGov) :=
  event_rejected_on_state_mismatch (.proposal infoBogus) selfGov storeGov
    appGov entryGov (by decide) (by decide) (by decide)

/-! ### Claim C8 -/

/-- C8: for an application in state GovernanceReview,
complete_governance_review creates exactly one new allocation request
of type First (Initial) for the full total requested amount with an
empty signer list, records the actor on it, moves the lifecycle state
to ReadyToSign and commits the result. -/
theorem governance_review_creates_initial_request (self : LDNApplication)
    (info : CompleteGovernanceReviewInfo) (uuid : String) (s : Store)
    (app : ApplicationFile) (entry : FileEntry)
    (hget : s.getFile (LDNPullRequest.application_path self.application_id)
      (LDNPullRequest.application_branch_name self.application_id) = some entry)
    (hdoc : entry.doc = .app app)
    (hstate : app.lifecycle.state = .GovernanceReview)
    (hname : self.file_name = LDNPullRequest.application_path self.application_id)
    (hbranch : self.branch_name =
      LDNPullRequest.application_branch_name self.application_id)
    (hsha : self.file_sha = entry.sha) :
    ∃ f, (self.complete_governance_review info uuid s).1 = .ok f
      ∧ f.allocation = app.allocation ++
          [⟨info.actor, uuid, .First, app.datacap.total_requested_amount, []⟩]
      ∧ f.lifecycle.state = .ReadyToSign
      ∧ f.lifecycle.is_active = app.lifecycle.is_active
      ∧ (self.complete_governance_review info uuid s).2.getFile
          self.file_name self.branch_name = some ⟨Doc.app f, s.nextSha⟩ := by
  obtain ⟨hst, hf⟩ := app_state_eq hget hdoc
  rw [hstate] at hst
  have hg2 : s.getFile self.file_name self.branch_name = some entry := by
    rw [hname, hbranch]; exact hget
  obtain ⟨s1, hupd⟩ := update_file_content_some_of_sha_eq
    (d := Doc.app (app.complete_governance_review info.actor
      (AllocationRequest.new info.actor uuid .First
        app.datacap.total_requested_amount))) hg2 hsha.symm
  obtain ⟨-, hget1, -⟩ := update_file_content_eq_some hupd
  have hrun : self.complete_governance_review info uuid s =
      (.ok (app.complete_governance_review info.actor
        (AllocationRequest.new info.actor uuid .First
          app.datacap.total_requested_amount)), s1) := by
    unfold LDNApplication.complete_governance_review
    simp only [hst, hf]
    unfold LDNApplication.commitStep LDNPullRequest.add_commit_to
    rw [hupd]
  refine ⟨app.complete_governance_review info.actor
    (AllocationRequest.new info.actor uuid .First
      app.datacap.total_requested_amount), ?_, rfl, rfl, rfl, ?_⟩
  · rw [hrun]
  · rw [hrun]
    exact hget1

/-- C8 at a concrete input: triggering a GovernanceReview application
creates the single initial allocation request and moves it to
ReadyToSign. -/
theorem governance_review_creates_initial_request_witness :
    ∃ f, (selfGov.complete_governance_review ⟨"alice"⟩ "uuid-1" storeGov).1 = .ok f
      ∧ f.allocation = appGov.allocation ++
          [⟨"alice", "uuid-1", .First, appGov.datacap.total_requested_amount, []⟩]
      ∧ f.lifecycle.state = .ReadyToSign
      ∧ f.lifecycle.is_active = appGov.lifecycle.is_active
      ∧ (selfGov.complete_governance_review ⟨"alice"⟩ "uuid-1" storeGov).2.getFile
          selfGov.file_name selfGov.branch_name
          = some ⟨Doc.app f, storeGov.nextSha⟩ :=
  governance_review_creates_initial_request selfGov ⟨"alice"⟩ "uuid-1" storeGov
    appGov entryGov (by decide) (by decide) (by decide) (by decide) (by decide)
    (by decide)

/-! ### Claim C6 -/

theorem wf_singleton (loc : Loc) (fe : FileEntry) (brs : List String) (n : Nat)
    (h : fe.sha < n) : Store.wf ⟨[(loc, fe)], brs, n⟩ := by
  intro p b e he
  unfold Store.getFile at he
  by_cases hd : loc = (p, b)
  · simp [List.find?, hd] at he
    rw [← he]
    exact h
  · simp [List.find?, hd] at he

/-- C6: the commit step of every transition is a conditional write
carrying the version token captured at load time: a transition can only
succeed when the stored token still equals the captured one, a token
mismatch makes the transition fail with an error reported to the caller
while the store is left exactly as it was (no internal retry), and of
two transitions run one after the other against the same loaded
(document, version token) pair at most one can succeed. -/
theorem optimistic_concurrency_at_most_one (t1 t2 : TransitionCall)
    (self : LDNApplication) (s : Store) (entry : FileEntry)
    (hwf : s.wf)
    (hget : s.getFile self.file_name self.branch_name = some entry) :
    (exOk (runTransition t1 self s).1 = true → entry.sha = self.file_sha)
    ∧ (entry.sha ≠ self.file_sha →
        ∃ e, runTransition t1 self s = (.error e, s))
    ∧ (exOk (runTransition t1 self s).1 = true →
        exOk (runTransition t2 self (runTransition t1 self s).2).1 = false
        ∧ (runTransition t2 self (runTransition t1 self s).2).2
            = (runTransition t1 self s).2) := by
  have hsha_of_ok : exOk (runTransition t1 self s).1 = true →
      entry.sha = self.file_sha := by
    intro hok
    rcases runTransition_shape t1 self s with ⟨f, s1, hr, hu⟩ | ⟨e, hr⟩
    · obtain ⟨⟨entry2, hg2, hsha2⟩, -, -⟩ := update_file_content_eq_some hu
      rw [hget] at hg2
      injection hg2 with h2
      rw [h2]
      exact hsha2
    · rw [hr] at hok
      exact absurd hok (by simp [exOk])
  refine ⟨hsha_of_ok, ?_, ?_⟩
  · intro hne
    rcases runTransition_shape t1 self s with ⟨f, s1, hr, hu⟩ | ⟨e, hr⟩
    · exact absurd (hsha_of_ok (by rw [hr]; rfl)) hne
    · exact ⟨e, hr⟩
  · intro hok
    rcases runTransition_shape t1 self s with ⟨f, s1, hr, hu⟩ | ⟨e, hr⟩
    · obtain ⟨⟨entry2, hg2, hsha2⟩, hget1, hnext⟩ :=
        update_file_content_eq_some hu
      rw [hget] at hg2
      injection hg2 with h2
      subst h2
      have hlt : self.file_sha < s.nextSha := by
        rw [← hsha2]
        exact hwf _ _ _ hget
      rcases runTransition_shape t2 self s1 with ⟨f2, s2, hr2, hu2⟩ | ⟨e2, hr2⟩
      · obtain ⟨⟨entry3, hg3, hsha3⟩, -, -⟩ := update_file_content_eq_some hu2
        rw [hget1] at hg3
        injection hg3 with h3
        rw [← h3] at hsha3
        exact absurd hsha3 (Nat.ne_of_gt hlt)
      · constructor
        · simp only [hr]
          rw [hr2]
          rfl
        · simp only [hr]
          rw [hr2]
    · rw [hr] at hok
      exact absurd hok (by simp [exOk])

/-- C6 at a concrete input: after one approve succeeds against a loaded
(document, token) pair, a second transition carrying the same token
fails and does not change the store. -/
theorem optimistic_concurrency_at_most_one_witness :
    exOk (runTransition (.approval infoBogus) selfSign
        (runTransition (.approval infoBogus) selfSign storeSign).2).1 = false
    ∧ (runTransition (.approval infoBogus) selfSign
        (runTransition (.approval infoBogus) selfSign storeSign).2).2
        = (runTransition (.approval infoBogus) selfSign storeSign).2 :=
  (optimistic_concurrency_at_most_one (.approval infoBogus) (.approval infoBogus)
    selfSign storeSign entrySign (wf_singleton _ _ _ _ (by decide))
    (by decide)).2.2 (by decide)

/-! ### Helper lemmas about the directory listings -/

theorem loaded_map_eq {prs : List PullRequestData}
    {loaded : List (Nat × String × ApplicationFile × PullRequestData)}
    (h : tryJoinAll LDNApplication.load_pr_files prs = .ok loaded) :
    loaded.map (fun r => r.2.2.1) = prs.filterMap (fun pr =>
      match pr.fetched with | .ok a => some a | _ => none) := by
  induction prs generalizing loaded with
  | nil =>
    unfold tryJoinAll at h
    injection h with h1
    subst h1
    rfl
  | cons pr prs ih =>
    obtain ⟨y, tl, hy, htl, rfl⟩ := tryJoinAll_ok_cons h
    unfold LDNApplication.load_pr_files at hy
    cases hp : pr.fetched with
    | ok a =>
      rw [hp] at hy
      injection hy with hy1
      subst hy1
      simp [List.filterMap_cons, hp, ih htl]
    | fetchError => rw [hp] at hy; exact absurd hy (by simp)
    | corrupt => rw [hp] at hy; exact absurd hy (by simp)

theorem active_none_dest {prs : List PullRequestData}
    {act : List ApplicationFile}
    (h : LDNApplication.active none prs = .ok act) :
    ∃ loaded, tryJoinAll LDNApplication.load_pr_files prs = .ok loaded
      ∧ act = loaded.map (fun r => r.2.2.1) := by
  unfold LDNApplication.active at h
  split at h
  · exact absurd h (by simp)
  · rename_i loaded hj
    injection h with h1
    exact ⟨loaded, hj, h1.symm⟩

theorem think_merged_ok_dest {item c : Content} {a : ApplicationFile}
    (h : LDNApplication.think_merged item = .ok (c, a)) :
    item = c ∧ item.fetched = .ok a ∧ a.lifecycle.is_active = true := by
  unfold LDNApplication.think_merged at h
  split at h
  · exact absurd h (by simp)
  · exact absurd h (by simp)
  · rename_i app hp
    split at h
    · rename_i hact
      injection h with h1
      injection h1 with h2 h3
      subst h2
      subst h3
      exact ⟨rfl, hp, hact⟩
    · exact absurd h (by simp)

theorem think_merged_ok_intro {item : Content} {a : ApplicationFile}
    (hp : item.fetched = .ok a) (hact : a.lifecycle.is_active = true) :
    LDNApplication.think_merged item = .ok (item, a) := by
  unfold LDNApplication.think_merged
  simp only [hp, hact]
  rfl

theorem merged_ok_dest {mainFiles : List Content}
    {prs : List PullRequestData} {l : List (Content × ApplicationFile)}
    (hm : LDNApplication.merged mainFiles prs = .ok l) :
    ∃ all_files act,
      tryJoinAll LDNApplication.think_merged
          (mainFiles.filter (fun c => c.download_url.isSome)) = .ok all_files
      ∧ LDNApplication.active none prs = .ok act
      ∧ l = all_files.filter (fun ca =>
          (act.find? (fun a => a.id == ca.2.id)).isNone
            && ca.2.lifecycle.is_active) := by
  unfold LDNApplication.merged at hm
  split at hm
  · exact absurd hm (by simp)
  · rename_i all_files hj
    split at hm
    · exact absurd hm (by simp)
    · rename_i act hact
      injection hm with h1
      exact ⟨all_files, act, hj, hact, h1.symm⟩

/-! ### Claim C9 -/

/-- C9: list_active is all-or-nothing.  A failed fetch (or a corrupted
body) for any single open pull request fails the whole call, and a
successful call returns exactly one entry per open pull request, in
order. -/
theorem active_all_or_nothing (prs : List PullRequestData) :
    ((∃ pr ∈ prs, pr.fetched = .fetchError ∨ pr.fetched = .corrupt) →
      ∃ e, LDNApplication.active none prs = .error e)
    ∧ (∀ l, LDNApplication.active none prs = .ok l →
      l.length = prs.length
      ∧ l = prs.filterMap (fun pr => match pr.fetched with
          | .ok a => some a | _ => none)) := by
  constructor
  · rintro ⟨pr, hmem, hbad⟩
    have herr : LDNApplication.load_pr_files pr = .error .Panic := by
      unfold LDNApplication.load_pr_files
      rcases hbad with hb | hb
      · simp only [hb]
      · simp only [hb]
    obtain ⟨e1, he1⟩ := tryJoinAll_error_of_mem hmem herr
    unfold LDNApplication.active
    rw [he1]
    exact ⟨e1, rfl⟩
  · intro l h
    obtain ⟨loaded, hj, hl⟩ := active_none_dest h
    subst hl
    refine ⟨?_, loaded_map_eq hj⟩
    rw [List.length_map]
    exact tryJoinAll_ok_length hj

/-- C9 at concrete inputs: one failing pull request fails the whole
listing, and a successful listing has one entry per pull request. -/
theorem active_all_or_nothing_witness :
    (∃ e, LDNApplication.active none [prOk, prBad] = .error e)
    ∧ ([appSign].length = [prOk].length
      ∧ [appSign] = [prOk].filterMap (fun pr => match pr.fetched with
          | .ok a => some a | _ => none)) :=
  ⟨(active_all_or_nothing [prOk, prBad]).1 ⟨prBad, by decide, by decide⟩,
   (active_all_or_nothing [prOk]).2 [appSign] (by rfl)⟩

/-! ### Claim C5 -/

/-- C5: a successful merged listing contains exactly the main-line
applications whose lifecycle is active and whose id is not reported by
the active set (computed from the same snapshot), and consequently the
merged and active listings never report the same application id. -/
theorem merged_complement_of_active (mainFiles : List Content)
    (prs : List PullRequestData) (l : List (Content × ApplicationFile))
    (act : List ApplicationFile)
    (hurl : ∀ c ∈ mainFiles, c.download_url.isSome = true)
    (hm : LDNApplication.merged mainFiles prs = .ok l)
    (hact : LDNApplication.active none prs = .ok act) :
    (∀ c a, (c, a) ∈ l ↔
      (c ∈ mainFiles ∧ c.fetched = .ok a ∧ a.lifecycle.is_active = true
        ∧ ∀ b ∈ act, b.id ≠ a.id))
    ∧ (∀ ca ∈ l, ∀ b ∈ act, b.id ≠ ca.2.id) := by
  obtain ⟨all_files, act2, hj, hact2, hl⟩ := merged_ok_dest hm
  rw [hact] at hact2
  injection hact2 with hacteq
  subst hacteq
  subst hl
  have hpred : ∀ ca : Content × ApplicationFile,
      ((act.find? (fun a => a.id == ca.2.id)).isNone
        && ca.2.lifecycle.is_active) = true ↔
      ((∀ b ∈ act, b.id ≠ ca.2.id) ∧ ca.2.lifecycle.is_active = true) := by
    intro ca
    rw [Bool.and_eq_true, Option.isNone_iff_eq_none, List.find?_eq_none]
    constructor
    · rintro ⟨h1, h2⟩
      exact ⟨fun b hb => by simpa using h1 b hb, h2⟩
    · rintro ⟨h1, h2⟩
      exact ⟨fun b hb => by simpa using h1 b hb, h2⟩
  constructor
  · intro c a
    constructor
    · intro hmem
      obtain ⟨hmem2, hp⟩ := List.mem_filter.mp hmem
      obtain ⟨hids, hactv⟩ := (hpred (c, a)).mp hp
      obtain ⟨x, hx, hfx⟩ := tryJoinAll_ok_mem_fwd hj _ hmem2
      obtain ⟨rfl, hfetch, -⟩ := think_merged_ok_dest hfx
      exact ⟨(List.mem_filter.mp hx).1, hfetch, hactv, hids⟩
    · rintro ⟨hcmem, hfetch, hactv, hids⟩
      have hcf : c ∈ mainFiles.filter (fun x => x.download_url.isSome) :=
        List.mem_filter.mpr ⟨hcmem, hurl c hcmem⟩
      obtain ⟨y, hy, hfy⟩ := tryJoinAll_ok_mem_rev hj c hcf
      rw [think_merged_ok_intro hfetch hactv] at hfy
      injection hfy with hfy1
      subst hfy1
      exact List.mem_filter.mpr ⟨hy, (hpred (c, a)).mpr ⟨hids, hactv⟩⟩
  · intro ca hca b hb
    obtain ⟨-, hp⟩ := List.mem_filter.mp hca
    exact ((hpred ca).mp hp).1 b hb

/-- C5 at a concrete snapshot: the single active-lifecycle main-line
application is reported by the merged listing exactly because it parses,
is active and is absent from the (empty) active set. -/
theorem merged_complement_of_active_witness :
    ((contentGranted, appGranted) ∈ [(contentGranted, appGranted)] ↔
      (contentGranted ∈ [contentGranted]
        ∧ contentGranted.fetched = .ok appGranted
        ∧ appGranted.lifecycle.is_active = true
        ∧ ∀ b ∈ ([] : List ApplicationFile), b.id ≠ appGranted.id)) :=
  (merged_complement_of_active [contentGranted] [] [(contentGranted, appGranted)]
    [] (by decide) (by rfl) (by rfl)).1 contentGranted appGranted

/-! ### Claim C10 -/

/-- C10: the merged listing fails as a whole whenever any main-line
application file fails to parse or carries an inactive lifecycle - an
archived document on the main line makes the whole call return an error
instead of being silently dropped. -/
theorem merged_fails_on_bad_main_file (mainFiles : List Content)
    (prs : List PullRequestData) (c : Content)
    (hc : c ∈ mainFiles) (hurl : c.download_url.isSome = true)
    (hbad : c.fetched = .corrupt ∨
      ∃ a, c.fetched = .ok a ∧ a.lifecycle.is_active = false) :
    ∃ e, LDNApplication.merged mainFiles prs = .error e := by
  have herr : LDNApplication.think_merged c
      = .error (.Load "Failed to fetch application files from their URLs") := by
    unfold LDNApplication.think_merged
    rcases hbad with hb | ⟨a, hb, hin⟩
    · simp only [hb]
    · simp only [hb, hin]
      rfl
  have hcf : c ∈ mainFiles.filter (fun x => x.download_url.isSome) :=
    List.mem_filter.mpr ⟨hc, hurl⟩
  obtain ⟨e1, he1⟩ := tryJoinAll_error_of_mem hcf herr
  unfold LDNApplication.merged
  rw [he1]
  exact ⟨e1, rfl⟩

/-- C10 at a concrete snapshot: one archived (inactive) main-line file
makes the whole merged listing fail. -/
theorem merged_fails_on_bad_main_file_witness :
    ∃ e, LDNApplication.merged [contentArchived] [] = .error e :=
  merged_fails_on_bad_main_file [contentArchived] [] contentArchived
    (by decide) (by decide) (Or.inr ⟨appArchived, by decide, by decide⟩)

/-! ### Claim C2 -/

/-- C2 counterexample: on the first refill of a merged application with
no prior refill requests, the new allocation request carries sequence
number Refill(0), not Refill(1) as the claim states. -/
theorem refill_sequence_number_cex :
    ((LDNApplication.refill ⟨"app2", "50", "GiB"⟩ "uuid-1" [contentGranted] []).2.map
      (fun op => match op with
        | .refillPr _ _ _ d => (d.allocation.map (fun a => a.request_type)).getLast?))
      = [some (.Refill 0)]
    ∧ (LDNApplication.refill ⟨"app2", "50", "GiB"⟩ "uuid-1" [contentGranted] []).1
        = .ok true
    ∧ (appGranted.allocation.filter (fun a =>
        match a.request_type with | .Refill _ => true | _ => false)).length = 0
    ∧ AllocationRequestType.Refill 0 ≠ AllocationRequestType.Refill 1 := by
  refine ⟨by rfl, by rfl, by decide, by decide⟩

/-- C2 (amended): every successful refill call creates exactly one new
AllocationRequest whose request type is Refill(0) regardless of the
number of prior refills, appended after all prior allocation requests,
which are left unchanged. -/
theorem refill_appends_refill_zero (refill_info : RefillInfo) (uuid : String)
    (mainFiles : List Content) (prs : List PullRequestData)
    (apps : List (Content × ApplicationFile)) (ca : Content × ApplicationFile)
    (hm : LDNApplication.merged mainFiles prs = .ok apps)
    (hfind : apps.find? (fun x => x.2.id == refill_info.id) = some ca) :
    (LDNApplication.refill refill_info uuid mainFiles prs).1 = .ok true
    ∧ (LDNApplication.refill refill_info uuid mainFiles prs).2
        = [.refillPr ca.2.id ca.2.client.name ca.1.sha
            { ca.2 with allocation := ca.2.allocation ++
              [⟨"SSA Bot", uuid, .Refill 0,
                refill_info.amount ++ refill_info.amount_type, []⟩] }] := by
  unfold LDNApplication.refill
  refine ⟨?_, ?_⟩ <;> simp only [hm, hfind]
  rfl

/-- C2 amended claim at a concrete input: the refill write appends the
Refill(0) request after the untouched initial allocation request. -/
theorem refill_appends_refill_zero_witness :
    (LDNApplication.refill ⟨"app2", "50", "GiB"⟩ "uuid-1" [contentGranted] []).1
      = .ok true
    ∧ (LDNApplication.refill ⟨"app2", "50", "GiB"⟩ "uuid-1" [contentGranted] []).2
        = [.refillPr appGranted.id appGranted.client.name contentGranted.sha
            { appGranted with allocation := appGranted.allocation ++
              [⟨"SSA Bot", "uuid-1", .Refill 0, "50" ++ "GiB", []⟩] }] :=
  refill_appends_refill_zero ⟨"app2", "50", "GiB"⟩ "uuid-1" [contentGranted] []
    [(contentGranted, appGranted)] (contentGranted, appGranted) (by rfl) (by rfl)

/-! ### Claim C4 -/

/-- C4 counterexample: a merged application in state Granted whose
cumulative granted amount meets its total requested amount, for which
check_total_reached neither returns true nor commits the archival
transition: it fails with a load error and issues no write at all. -/
theorem total_dc_reached_cex :
    appGranted.lifecycle.get_state = .Granted
    ∧ totalDatacapReached appGranted = true
    ∧ (LDNApplication.total_dc_reached "app2" [contentGranted] []).1
        = .error (.Load "")
    ∧ (LDNApplication.total_dc_reached "app2" [contentGranted] []).2 = [] := by
  refine ⟨by decide, by decide, by rfl, by rfl⟩

/-- C4 (amended): check_total_reached never checks the granted amounts
and, on a consistent snapshot, never returns true: it errors for an
application id absent from the merged set, answers false for a merged
application not in state Granted, and for a Granted merged application
it fails with an empty load error and performs no write, because it
reloads the application from the open pull requests, which cannot carry
a merged application id on a consistent snapshot. -/
theorem total_dc_reached_behavior (application_id : String)
    (mainFiles : List Content) (prs : List PullRequestData)
    (m : List (Content × ApplicationFile))
    (hm : LDNApplication.merged mainFiles prs = .ok m) :
    (m.find? (fun ca => ca.2.id == application_id) = none →
      LDNApplication.total_dc_reached application_id mainFiles prs
        = (.error (.Load ("Application issue " ++ application_id ++
            " does not exist")), []))
    ∧ (∀ ca, m.find? (fun ca => ca.2.id == application_id) = some ca →
        ca.2.lifecycle.get_state ≠ .Granted →
        LDNApplication.total_dc_reached application_id mainFiles prs
          = (.ok false, []))
    ∧ (∀ ca, m.find? (fun ca => ca.2.id == application_id) = some ca →
        ca.2.lifecycle.get_state = .Granted →
        LDNApplication.total_dc_reached application_id mainFiles prs
          = (.error (.Load ""), [])) := by
  obtain ⟨all_files, act, hj, hact, hl⟩ := merged_ok_dest hm
  refine ⟨?_, ?_, ?_⟩
  · intro hnone
    unfold LDNApplication.total_dc_reached
    simp only [hm, hnone]
  · intro ca hfind hne
    unfold LDNApplication.total_dc_reached
    cases hst : ca.2.lifecycle.get_state with
    | Granted => exact absurd hst hne
    | GovernanceReview => simp only [hm, hfind, hst]
    | ReadyToSign => simp only [hm, hfind, hst]
    | StartSignDatacap => simp only [hm, hfind, hst]
  · intro ca hfind hgr
    have hmem : ca ∈ m := List.mem_of_find?_eq_some hfind
    have hid : ca.2.id = application_id := by
      have := List.find?_some hfind
      simpa using this
    have hids : ∀ b ∈ act, b.id ≠ ca.2.id := by
      intro b hb
      rw [hl] at hmem
      obtain ⟨-, hp⟩ := List.mem_filter.mp hmem
      rw [Bool.and_eq_true] at hp
      obtain ⟨h1, -⟩ := hp
      have hfnone := Option.isNone_iff_eq_none.mp h1
      have := List.find?_eq_none.mp hfnone b hb
      simpa using this
    obtain ⟨loaded, hjl, hacteq⟩ := active_none_dest hact
    have hnone : loaded.find? (fun r => r.2.2.1.id == application_id) = none := by
      apply List.find?_eq_none.mpr
      intro r hr
      have hmemact : r.2.2.1 ∈ act := by
        rw [hacteq]
        exact List.mem_map_of_mem _ hr
      have := hids _ hmemact
      rw [hid] at this
      simpa using this
    have hload : LDNApplication.load application_id prs = .error (.Load "") := by
      unfold LDNApplication.load
      simp only [hjl, hnone]
    unfold LDNApplication.total_dc_reached
    simp only [hm, hfind, hgr, hload]

/-- C4 amended claim at a concrete snapshot: for the Granted merged
application the sweep fails with the empty load error and writes
nothing. -/
theorem total_dc_reached_behavior_witness :
    LDNApplication.total_dc_reached "app2" [contentGranted] []
      = (.error (.Load ""), []) :=
  (total_dc_reached_behavior "app2" [contentGranted] []
    [(contentGranted, appGranted)] (by rfl)).2.2
    (contentGranted, appGranted) (by rfl) (by decide)

/-! ### Claim C7 -/

/-- C7: create application rejects with an already-exists error and
performs no store operation when a document already exists at the path
and branch computed from the parsed application id; otherwise it
creates a fresh staging branch, commits the placeholder file and then
commits an initial application document in state GovernanceReview with
an empty allocation history. -/
theorem new_from_issue_behavior (issue_number : String)
    (parsed : ParsedIssueData) (s : Store) :
    (∀ entry, s.getFile (LDNPullRequest.application_path parsed.id)
        (LDNPullRequest.application_branch_name parsed.id) = some entry →
      LDNApplication.new_from_issue issue_number parsed s
        = (.error (.New ("Application issue " ++ parsed.id ++
            " already exists")), s, []))
    ∧ (s.getFile (LDNPullRequest.application_path parsed.id)
        (LDNPullRequest.application_branch_name parsed.id) = none →
      exOk (LDNApplication.new_from_issue issue_number parsed s).1 = true
      ∧ (LDNApplication.new_from_issue issue_number parsed s).2.2
          = [.createBranch (LDNPullRequest.application_branch_name issue_number),
             .commitFile (LDNPullRequest.application_path parsed.id)
               (LDNPullRequest.application_branch_name issue_number)
               (.raw "\x7b\x7d")
               ("Start Application: " ++ parsed.client.name ++ "-" ++ parsed.id),
             .commitFile (LDNPullRequest.application_path parsed.id)
               (LDNPullRequest.application_branch_name parsed.id)
               (Doc.app (ApplicationFile.new issue_number parsed.id
                 parsed.client parsed.datacap))
               LDNPullRequest.application_move_to_governance_review]
      ∧ (ApplicationFile.new issue_number parsed.id parsed.client
          parsed.datacap).lifecycle.state = .GovernanceReview
      ∧ (ApplicationFile.new issue_number parsed.id parsed.client
          parsed.datacap).allocation = []) := by
  constructor
  · intro entry hg
    unfold LDNApplication.new_from_issue
    simp only [hg]
  · intro hg
    unfold LDNApplication.new_from_issue
    refine ⟨?_, ?_, ?_, ?_⟩ <;> (try simp only [hg]) <;> (try rfl)

/-- C7 at concrete inputs: creating against an empty store succeeds
with the branch creation and the two commits, ending in state
GovernanceReview; creating again once the document exists is rejected
without any store operation. -/
theorem new_from_issue_behavior_witness :
    (exOk (LDNApplication.new_from_issue "5" parsedFix storeEmpty).1 = true
      ∧ (LDNApplication.new_from_issue "5" parsedFix storeEmpty).2.2
          = [.createBranch (LDNPullRequest.application_branch_name "5"),
             .commitFile (LDNPullRequest.application_path parsedFix.id)
               (LDNPullRequest.application_branch_name "5")
               (.raw "\x7b\x7d")
               ("Start Application: " ++ parsedFix.client.name ++ "-" ++ parsedFix.id),
             .commitFile (LDNPullRequest.application_path parsedFix.id)
               (LDNPullRequest.application_branch_name parsedFix.id)
               (Doc.app (ApplicationFile.new "5" parsedFix.id
                 parsedFix.client parsedFix.datacap))
               LDNPullRequest.application_move_to_governance_review]
      ∧ (ApplicationFile.new "5" parsedFix.id parsedFix.client
          parsedFix.datacap).lifecycle.state = .GovernanceReview
      ∧ (ApplicationFile.new "5" parsedFix.id parsedFix.client
          parsedFix.datacap).allocation = []) :=
  (new_from_issue_behavior "5" parsedFix storeEmpty).2 (by decide)

end Filplus
